/-
Verification of the ZeroOS hardware-abstraction / syscall-dispatch core:
the ioctl command codec (crates/zeroos-foundation/src/ioctl.rs), the VFS
dispatcher (crates/zeroos-vfs-core/src/vfs.rs, device.rs) and the RISC-V
trap-frame operations (crates/zeroos-arch-riscv/src/ops.rs).

Machine integers are modelled as `Nat` with explicit masking/modding where
the Rust code truncates (`as u8` becomes `% 256`, etc.); file descriptors
(`Fd = i32`) are modelled as `Int`.  Fallible operations return
`Option`/`Except`; a Rust `panic!` is modelled as `none`.
-/
import Mathlib

set_option maxRecDepth 4096

/-! # Ioctl codec (zeroos-foundation/src/ioctl.rs) -/

/-- Direction of the ioctl data transfer (`IoctlDir`, `#[repr(u8)]`:
None = 0, Read = 1, Write = 2, ReadWrite = 3). -/
inductive IoctlDir where
  | None
  | Read
  | Write
  | ReadWrite
deriving DecidableEq, Repr

namespace IoctlDir

/-- `IoctlDir::from_u8`: `match val & 0b11 { 0 => None, 1 => Read, 2 => Write,
3 => ReadWrite, _ => unreachable }`.  The argument is a `u8` modelled as a
`Nat`; the `≥ 4` arm is unreachable under the mask (the source marks it
`unreachable_unchecked`), so any total completion is faithful. -/
def from_u8 (val : Nat) : IoctlDir :=
  match val &&& 0b11 with
  | 0 => IoctlDir.None
  | 1 => IoctlDir.Read
  | 2 => IoctlDir.Write
  | _ => IoctlDir.ReadWrite
end IoctlDir

/-- A decoded ioctl command (`IoctlCommand`): `dir`, `size: u16`,
`magic: u8`, `nr: u8`.  The integer fields are `Nat`s; theorems carry the
Rust type bounds (`size < 65536`, `magic < 256`, `nr < 256`) as hypotheses. -/
structure IoctlCommand where
  dir : IoctlDir
  size : Nat
  magic : Nat
  nr : Nat
deriving DecidableEq, Repr

namespace IoctlCommand

def NRBITS : Nat := 8
def TYPEBITS : Nat := 8
def SIZEBITS : Nat := 14
def DIRBITS : Nat := 2

def NRSHIFT : Nat := 0
def TYPESHIFT : Nat := NRSHIFT + NRBITS
def SIZESHIFT : Nat := TYPESHIFT + TYPEBITS
def DIRSHIFT : Nat := SIZESHIFT + SIZEBITS

/-- `IoctlCommand::new(dir, magic, nr, size)`.  The Rust function panics when
`size > (1 << SIZEBITS) - 1`; the panic is modelled as `none`.  On success the
`size as u16` cast is modelled as `% 65536` (a no-op under the guard). -/
def new (dir : IoctlDir) (magic nr : Nat) (size : Nat) : Option IoctlCommand :=
  if size > (1 <<< SIZEBITS) - 1 then
    none
  else
    some { dir := dir, magic := magic, nr := nr, size := size % 65536 }

/-- `IoctlCommand::from_raw(raw)`: field extraction; the `as u8` casts are
`% 256`, the size/direction masks are the source's `(1 << BITS) - 1`.
Direction mapping: 0 ↦ None, 1 ↦ Write, 2 ↦ Read, 3 ↦ ReadWrite (the `_` arm
is the source's unreachable-under-mask `IoctlDir::None` arm). -/
def from_raw (raw : Nat) : IoctlCommand :=
  let nr := (raw >>> NRSHIFT) % 256
  let magic := (raw >>> TYPESHIFT) % 256
  let size := (raw >>> SIZESHIFT) &&& ((1 <<< SIZEBITS) - 1)
  let dir_val := (raw >>> DIRSHIFT) &&& ((1 <<< DIRBITS) - 1)
  let dir := match dir_val with
    | 0 => IoctlDir.None
    | 1 => IoctlDir.Write
    | 2 => IoctlDir.Read
    | 3 => IoctlDir.ReadWrite
    | _ => IoctlDir.None
  { dir := dir, size := size, magic := magic, nr := nr }

/-- `IoctlCommand::to_raw`: direction mapping None ↦ 0, Write ↦ 1, Read ↦ 2,
ReadWrite ↦ 3, then or-together the shifted fields. -/
def to_raw (c : IoctlCommand) : Nat :=
  let dir_bits : Nat := match c.dir with
    | IoctlDir.None => 0
    | IoctlDir.Write => 1
    | IoctlDir.Read => 2
    | IoctlDir.ReadWrite => 3
  (c.nr <<< NRSHIFT) ||| (c.magic <<< TYPESHIFT) ||| (c.size <<< SIZESHIFT)
    ||| (dir_bits <<< DIRSHIFT)

/-- The ABI bit pattern `to_raw` emits for a direction. -/
def dirBits : IoctlDir → Nat
  | IoctlDir.None => 0
  | IoctlDir.Write => 1
  | IoctlDir.Read => 2
  | IoctlDir.ReadWrite => 3

end IoctlCommand

/-! ## Bit-manipulation helper lemmas -/

/-- `testBit` of `a + b * 2^k` with `a < 2^k`: low bits come from `a`, high
bits from `b`. -/
theorem testBit_add_mul_two_pow {a k : Nat} (b : Nat) (ha : a < 2 ^ k) (i : Nat) :
    (a + b * 2 ^ k).testBit i =
      if i < k then a.testBit i else b.testBit (i - k) := by
  rcases Nat.lt_or_ge i k with h | h
  · simp only [if_pos h]
    have hmod : (a + b * 2 ^ k) % 2 ^ k = a := by
      rw [Nat.add_mul_mod_self_right, Nat.mod_eq_of_lt ha]
    calc (a + b * 2 ^ k).testBit i
        = ((a + b * 2 ^ k) % 2 ^ k).testBit i := by
          rw [Nat.testBit_mod_two_pow, decide_eq_true h, Bool.true_and]
      _ = a.testBit i := by rw [hmod]
  · simp only [if_neg (Nat.not_lt.mpr h)]
    have hdiv : (a + b * 2 ^ k) >>> k = b := by
      rw [Nat.shiftRight_eq_div_pow,
        Nat.add_mul_div_right _ _ (Nat.pos_pow_of_pos k (by norm_num)),
        Nat.div_eq_of_lt ha, Nat.zero_add]
    calc (a + b * 2 ^ k).testBit i
        = (a + b * 2 ^ k).testBit (k + (i - k)) := by
          rw [Nat.add_sub_cancel' h]
      _ = ((a + b * 2 ^ k) >>> k).testBit (i - k) := by
          rw [Nat.testBit_shiftRight]
      _ = b.testBit (i - k) := by rw [hdiv]

/-- Bitwise or of a low field and a shifted high field is their sum when the
low field fits below the shift. -/
theorem lor_shiftLeft_eq_add {a k : Nat} (b : Nat) (ha : a < 2 ^ k) :
    a ||| b <<< k = a + b * 2 ^ k := by
  apply Nat.eq_of_testBit_eq
  intro i
  rw [Nat.testBit_or, testBit_add_mul_two_pow b ha i]
  rcases Nat.lt_or_ge i k with h | h
  · simp only [if_pos h, Nat.testBit_shiftLeft]
    rw [decide_eq_false (by omega : ¬ k ≤ i)]
    simp
  · simp only [if_neg (Nat.not_lt.mpr h), Nat.testBit_shiftLeft]
    rw [Nat.testBit_lt_two_pow (lt_of_lt_of_le ha (Nat.pow_le_pow_right (by norm_num) h))]
    rw [decide_eq_true h]
    simp

namespace IoctlCommand

/-- `to_raw` as plain arithmetic, for bounded fields. -/
theorem to_raw_eq_add {c : IoctlCommand} (hn : c.nr < 256) (hm : c.magic < 256)
    (hs : c.size ≤ 16383) :
    c.to_raw = c.nr + c.magic * 256 + c.size * 65536 + dirBits c.dir * 1073741824 := by
  have hd : dirBits c.dir < 4 := by cases c.dir <;> simp [dirBits]
  unfold to_raw
  show (c.nr <<< NRSHIFT) ||| (c.magic <<< TYPESHIFT) ||| (c.size <<< SIZESHIFT)
      ||| (dirBits c.dir <<< DIRSHIFT) = _
  have e0 : c.nr <<< NRSHIFT = c.nr := by simp [NRSHIFT, Nat.shiftLeft_eq]
  rw [e0]
  have e1 : c.nr ||| c.magic <<< TYPESHIFT = c.nr + c.magic * 256 := by
    have := lor_shiftLeft_eq_add (a := c.nr) (k := 8) c.magic (by omega)
    simpa [TYPESHIFT, TYPEBITS, NRSHIFT, NRBITS] using this
  rw [e1]
  have e2 : c.nr + c.magic * 256 ||| c.size <<< SIZESHIFT
      = c.nr + c.magic * 256 + c.size * 65536 := by
    have := lor_shiftLeft_eq_add (a := c.nr + c.magic * 256) (k := 16) c.size (by omega)
    simpa [SIZESHIFT, TYPESHIFT, TYPEBITS, NRSHIFT, NRBITS, SIZEBITS] using this
  rw [e2]
  have e3 : c.nr + c.magic * 256 + c.size * 65536 ||| dirBits c.dir <<< DIRSHIFT
      = c.nr + c.magic * 256 + c.size * 65536 + dirBits c.dir * 1073741824 := by
    have := lor_shiftLeft_eq_add (a := c.nr + c.magic * 256 + c.size * 65536) (k := 30)
      (dirBits c.dir) (by omega)
    simpa [DIRSHIFT, SIZESHIFT, TYPESHIFT, TYPEBITS, NRSHIFT, NRBITS, SIZEBITS] using this
  rw [e3]

theorem NRSHIFT_eq : NRSHIFT = 0 := rfl
theorem TYPESHIFT_eq : TYPESHIFT = 8 := rfl
theorem SIZESHIFT_eq : SIZESHIFT = 16 := rfl
theorem DIRSHIFT_eq : DIRSHIFT = 30 := rfl
theorem size_mask_eq : (1 <<< SIZEBITS) - 1 = 16383 := by decide
theorem dir_mask_eq : (1 <<< DIRBITS) - 1 = 3 := by decide

theorem mask14_eq_mod (x : Nat) : x &&& 16383 = x % 16384 := by
  have := Nat.and_pow_two_sub_one_eq_mod x 14
  norm_num at this
  exact this

theorem mask2_eq_mod (x : Nat) : x &&& 3 = x % 4 := by
  have := Nat.and_pow_two_sub_one_eq_mod x 2
  norm_num at this
  exact this

theorem shiftRight8_eq (x : Nat) : x >>> 8 = x / 256 := by
  rw [Nat.shiftRight_eq_div_pow]

theorem shiftRight16_eq (x : Nat) : x >>> 16 = x / 65536 := by
  rw [Nat.shiftRight_eq_div_pow]

theorem shiftRight30_eq (x : Nat) : x >>> 30 = x / 1073741824 := by
  rw [Nat.shiftRight_eq_div_pow]

/-- Explicit-field version of `to_raw_eq_add`. -/
theorem to_raw_eq_add' (d : IoctlDir) (s m n : Nat) (hn : n < 256) (hm : m < 256)
    (hs : s ≤ 16383) :
    to_raw ⟨d, s, m, n⟩ = n + m * 256 + s * 65536 + dirBits d * 1073741824 :=
  to_raw_eq_add (c := ⟨d, s, m, n⟩) hn hm hs

/-- Decode-after-encode restores every command whose fields respect the Rust
field types and whose size fits 14 bits. -/
theorem from_raw_to_raw {c : IoctlCommand} (hn : c.nr < 256) (hm : c.magic < 256)
    (hs : c.size ≤ 16383) : from_raw (to_raw c) = c := by
  obtain ⟨d, s, m, n⟩ := c
  simp only at hn hm hs
  rw [to_raw_eq_add' d s m n hn hm hs]
  have hd : dirBits d < 4 := by cases d <;> simp [dirBits]
  simp only [from_raw, NRSHIFT_eq, TYPESHIFT_eq, SIZESHIFT_eq, DIRSHIFT_eq,
    size_mask_eq, dir_mask_eq, mask14_eq_mod, mask2_eq_mod, Nat.shiftRight_zero,
    shiftRight8_eq, shiftRight16_eq, shiftRight30_eq, IoctlCommand.mk.injEq]
  refine ⟨?_, ?_, ?_, ?_⟩
  · have hv : (n + m * 256 + s * 65536 + dirBits d * 1073741824) / 1073741824 % 4
        = dirBits d := by omega
    rw [hv]
    cases d <;> simp [dirBits]
  · omega
  · omega
  · omega

/-- Encode-after-decode restores every raw word below `2^32`. -/
theorem to_raw_from_raw {raw : Nat} (h : raw < 4294967296) :
    to_raw (from_raw raw) = raw := by
  simp only [from_raw, NRSHIFT_eq, TYPESHIFT_eq, SIZESHIFT_eq, DIRSHIFT_eq,
    size_mask_eq, dir_mask_eq, mask14_eq_mod, mask2_eq_mod, Nat.shiftRight_zero,
    shiftRight8_eq, shiftRight16_eq, shiftRight30_eq]
  have hdv : raw / 1073741824 % 4 = 0 ∨ raw / 1073741824 % 4 = 1 ∨
      raw / 1073741824 % 4 = 2 ∨ raw / 1073741824 % 4 = 3 := by omega
  rcases hdv with hdv | hdv | hdv | hdv <;>
    rw [hdv] <;>
    rw [to_raw_eq_add' _ _ _ _ (by omega) (by omega) (by omega)] <;>
    simp only [dirBits] <;>
    omega

/-- Encoding any command sets raw bit 31 whenever its direction is `Read`
(ABI dir bits `10`), and raw bit 30 whenever it is `Write` (ABI dir bits
`01`) — independently of the other fields, since `to_raw` ors the shifted
direction bits in last. -/
theorem to_raw_testBit_of_read {c : IoctlCommand} (hd : c.dir = IoctlDir.Read) :
    c.to_raw.testBit 31 = true := by
  simp only [to_raw, hd, DIRSHIFT_eq, Nat.testBit_or, Nat.testBit_shiftLeft]
  norm_num
  exact Or.inr (by decide)

theorem to_raw_testBit_of_write {c : IoctlCommand} (hd : c.dir = IoctlDir.Write) :
    c.to_raw.testBit 30 = true := by
  simp only [to_raw, hd, DIRSHIFT_eq, Nat.testBit_or, Nat.testBit_shiftLeft]
  norm_num

end IoctlCommand

/-- C1: the ioctl codec round-trips: decoding an encoded command restores the
command (for any command whose fields respect the Rust types `u8`/`u8` and
whose size fits 14 bits), and encoding a decoded valid 32-bit raw word
restores the word; both paths use the same direction mapping 0 ↦ None,
1 ↦ Write, 2 ↦ Read, 3 ↦ ReadWrite. -/
theorem C1_ioctl_codec_roundtrip (c : IoctlCommand) (raw : Nat)
    (hn : c.nr < 256) (hm : c.magic < 256) (hs : c.size ≤ 16383)
    (hraw : raw < 4294967296) :
    IoctlCommand.from_raw c.to_raw = c ∧ (IoctlCommand.from_raw raw).to_raw = raw :=
  ⟨IoctlCommand.from_raw_to_raw hn hm hs, IoctlCommand.to_raw_from_raw hraw⟩

/-- C1 witness: a concrete command (dir = Read, size 4, magic 171, nr 7) and a
concrete raw word round-trip. -/
theorem C1_ioctl_codec_roundtrip_witness :
    IoctlCommand.from_raw (IoctlCommand.to_raw ⟨IoctlDir.Read, 4, 171, 7⟩)
        = ⟨IoctlDir.Read, 4, 171, 7⟩ ∧
      (IoctlCommand.from_raw 2148557910).to_raw = 2148557910 :=
  C1_ioctl_codec_roundtrip ⟨IoctlDir.Read, 4, 171, 7⟩ 2148557910
    (by decide) (by decide) (by decide) (by decide)

/-- C6: `IoctlCommand::new` fails fatally (modelled: returns `none`) exactly
when `size > 16383`; at the boundary `size = 16383` it succeeds and the
constructed command round-trips through `to_raw`/`from_raw`. -/
theorem C6_ioctl_new_size_guard (d : IoctlDir) (magic nr size : Nat)
    (hm : magic < 256) (hn : nr < 256) :
    (IoctlCommand.new d magic nr size = none ↔ 16383 < size) ∧
      ∃ c, IoctlCommand.new d magic nr 16383 = some c ∧
        IoctlCommand.from_raw c.to_raw = c := by
  constructor
  · simp only [IoctlCommand.new, IoctlCommand.size_mask_eq, gt_iff_lt]
    split
    · simpa
    · simp_all
  · refine ⟨⟨d, 16383, magic, nr⟩, ?_, ?_⟩
    · simp [IoctlCommand.new, IoctlCommand.size_mask_eq]
    · exact IoctlCommand.from_raw_to_raw hn hm (by norm_num)

/-- C6 witness: at `size = 16384` construction fails, at the boundary 16383
it succeeds and round-trips (concrete direction/magic/nr). -/
theorem C6_ioctl_new_size_guard_witness :
    (IoctlCommand.new IoctlDir.Write 5 9 16384 = none ↔ 16383 < 16384) ∧
      ∃ c, IoctlCommand.new IoctlDir.Write 5 9 16383 = some c ∧
        IoctlCommand.from_raw c.to_raw = c :=
  C6_ioctl_new_size_guard IoctlDir.Write 5 9 16384 (by decide) (by decide)

/-- C10: `IoctlDir::from_u8` maps 1 ↦ Read and 2 ↦ Write — the inverse of the
wire mapping `from_raw`/`to_raw` use — so re-reading the direction bits of an
encoded command through `from_u8` never returns the command's own direction
when that direction is Read or Write. -/
theorem C10_from_u8_inverse_mapping (c : IoctlCommand)
    (hdir : c.dir = IoctlDir.Read ∨ c.dir = IoctlDir.Write) :
    IoctlDir.from_u8 1 = IoctlDir.Read ∧ IoctlDir.from_u8 2 = IoctlDir.Write ∧
      IoctlDir.from_u8 ((c.to_raw >>> 30) % 256) ≠ c.dir := by
  refine ⟨by decide, by decide, ?_⟩
  have hmask : ((c.to_raw >>> 30) % 256) &&& 3 = (c.to_raw >>> 30) % 4 := by
    rw [IoctlCommand.mask2_eq_mod, Nat.mod_mod_of_dvd _ (by norm_num)]
  have hlt : (c.to_raw >>> 30) % 4 < 4 := Nat.mod_lt _ (by norm_num)
  rcases hdir with hd | hd
  · -- dir = Read: raw bit 31 is set, so the extracted dir value is 2 or 3,
    -- which from_u8 maps to Write or ReadWrite, never Read.
    have hbit : ((c.to_raw >>> 30) % 4).testBit 1 = true := by
      have h4 : ((c.to_raw >>> 30) % 4) = ((c.to_raw >>> 30) % 2 ^ 2) := by norm_num
      rw [h4, Nat.testBit_mod_two_pow, Nat.testBit_shiftRight]
      simpa using IoctlCommand.to_raw_testBit_of_read hd
    rw [Nat.testBit_to_div_mod] at hbit
    simp only [pow_one, decide_eq_true_eq] at hbit
    have h23 : (c.to_raw >>> 30) % 4 = 2 ∨ (c.to_raw >>> 30) % 4 = 3 := by omega
    simp only [IoctlDir.from_u8, hmask, hd]
    rcases h23 with h | h <;> rw [h] <;> decide
  · -- dir = Write: raw bit 30 is set, so the extracted dir value is odd,
    -- which from_u8 maps to Read or ReadWrite, never Write.
    have hbit : ((c.to_raw >>> 30) % 4).testBit 0 = true := by
      have h4 : ((c.to_raw >>> 30) % 4) = ((c.to_raw >>> 30) % 2 ^ 2) := by norm_num
      rw [h4, Nat.testBit_mod_two_pow, Nat.testBit_shiftRight]
      simpa using IoctlCommand.to_raw_testBit_of_write hd
    rw [Nat.testBit_to_div_mod] at hbit
    simp only [pow_zero, Nat.div_one] at hbit
    simp only [decide_eq_true_eq] at hbit
    have h13 : (c.to_raw >>> 30) % 4 = 1 ∨ (c.to_raw >>> 30) % 4 = 3 := by omega
    simp only [IoctlDir.from_u8, hmask, hd]
    rcases h13 with h | h <;> rw [h] <;> decide

/-- C10 witness: on a concrete Read command the direction bits re-read through
`from_u8` come back as Write, not Read. -/
theorem C10_from_u8_inverse_mapping_witness :
    IoctlDir.from_u8 1 = IoctlDir.Read ∧ IoctlDir.from_u8 2 = IoctlDir.Write ∧
      IoctlDir.from_u8 ((IoctlCommand.to_raw ⟨IoctlDir.Read, 4, 171, 7⟩ >>> 30) % 256)
        ≠ IoctlDir.Read :=
  C10_from_u8_inverse_mapping ⟨IoctlDir.Read, 4, 171, 7⟩ (Or.inl rfl)

/-! # Device capability interface (zeroos-vfs-core/src/device.rs) -/

/- POSIX error numbers, as used through the `libc` crate on Linux. -/
namespace libc
def ENOENT : Int := 2
def EBADF : Int := 9
def EFAULT : Int := 14
def EINVAL : Int := 22
def EMFILE : Int := 24
def ENOTTY : Int := 25
def ESPIPE : Int := 29
def ENOSYS : Int := 38
end libc

/-- A device driver (`trait Device`).  Every driver this development reasons
about (the trait's default bodies, `/dev/null`, `/dev/zero`) carries no
mutable state, so the capability methods are modelled as pure functions.
User buffers are untrusted addresses, modelled as `Nat` with `0` = null. -/
structure Device where
  read : Nat → Nat → Int
  write : Nat → Nat → Int
  seek : Int → Int → Int
  ioctl : IoctlCommand → Nat → Int
  release : Int

/-- `Device::read` default body: `-(libc::EBADF as isize)`. -/
def Device.defaultRead (_buf _count : Nat) : Int := -libc.EBADF

/-- `Device::write` default body: `-(libc::EBADF as isize)`. -/
def Device.defaultWrite (_buf _count : Nat) : Int := -libc.EBADF

/-- `Device::seek` default body: `-(libc::ESPIPE as isize)`. -/
def Device.defaultSeek (_offset _whence : Int) : Int := -libc.ESPIPE

/-- `Device::ioctl` default body: `-(libc::ENOTTY as isize)`. -/
def Device.defaultIoctl (_cmd : IoctlCommand) (_arg : Nat) : Int := -libc.ENOTTY

/-- `Device::release` default body: `0`. -/
def Device.defaultRelease : Int := 0

/-- A device implementation that overrides none of the trait's methods. -/
def Device.defaults : Device :=
  { read := Device.defaultRead
    write := Device.defaultWrite
    seek := Device.defaultSeek
    ioctl := Device.defaultIoctl
    release := Device.defaultRelease }

/-- `NullDevice` (zeroos-device-null): `read` returns 0, `write` returns
`count`; the other methods keep the trait defaults. -/
def NullDevice : Device :=
  { Device.defaults with
    read := fun _buf _count => 0
    write := fun _buf count => (count : Int) }

/-- `ZeroDevice` (zeroos-device-zero): `read` returns 0 for zero length, fails
EFAULT on a null buffer, otherwise zero-fills the user buffer (a side effect
on user memory, outside this model) and returns `count`; `write` returns
`count`.  The other methods keep the trait defaults. -/
def ZeroDevice : Device :=
  { Device.defaults with
    read := fun buf count =>
      if count = 0 then 0
      else if buf = 0 then -libc.EFAULT
      else (count : Int)
    write := fun _buf count => (count : Int) }

/-- `FdEntry` as used by `vfs.rs`: one owned device per bound slot. -/
structure FdEntry where
  device : Device

/-! # VFS dispatcher (zeroos-vfs-core/src/vfs.rs) -/

def MAX_FDS : Nat := 256

/-- The VFS state: a 256-slot descriptor table (`fd_table[i] = none` is the
Empty state, `some entry` the Bound state; only indices `< MAX_FDS` are
meaningful), the `next_fd` allocation hint (`Fd = i32`, modelled as `Int`),
and the `(path, factory)` registration list.

Modelled from the spec: the `DeviceFactory` trait (`create(&self) ->
Box<dyn Device>`) is declared in a part of `zeroos-vfs-core` not present
under `src/` (the `lib.rs` present carries an older function-pointer
version while `vfs.rs` calls `factory.create()`).  Spec §4.3: a factory
"manufactures one fresh, independent instance per call" and is "stateless
or hold[s] only immutable configuration", so a factory is modelled as the
`Device` value it manufactures. -/
structure Vfs where
  fd_table : Nat → Option FdEntry
  next_fd : Int
  devices : List (String × Device)

/-- `Vfs::new()`: empty table, `next_fd = 3`, no registrations. -/
def Vfs.new : Vfs :=
  { fd_table := fun _ => none
    next_fd := 3
    devices := [] }

/-- `Vfs::register_device`: append to the registry (duplicates allowed). -/
def Vfs.register_device (v : Vfs) (path : String) (factory : Device) :
    Vfs × Except Int Unit :=
  ({ v with devices := v.devices ++ [(path, factory)] }, Except.ok ())

/-- The body of `for idx in lo..lo+fuel { if fd_table[idx].is_none() { found =
Some(idx); break } }`: first index with an Empty slot in the half-open range. -/
def scanEmpty (t : Nat → Option FdEntry) : Nat → Nat → Option Nat
  | _, 0 => none
  | lo, fuel + 1 => if (t lo).isNone then some lo else scanEmpty t (lo + 1) fuel

/-- `Vfs::open(path, _flags, _mode)`: first-match factory lookup (ENOENT when
none), circular Empty-slot scan from `max(next_fd, 3)` with wrap to 3 (EMFILE
when none), then advance `next_fd` (wrapping to 3 past the last index), create
the device via the factory and bind it.  Errors leave the state unchanged,
exactly as the early `return`s in the source do. -/
def Vfs.open (v : Vfs) (path : String) (_flags : Int) (_mode : Nat) :
    Vfs × Except Int Int :=
  match v.devices.find? (fun pf => pf.1 == path) with
  | none => (v, Except.error (-libc.ENOENT))
  | some pf =>
    let start : Nat := (max v.next_fd 3).toNat
    let found : Option Nat :=
      match scanEmpty v.fd_table start (MAX_FDS - start) with
      | some i => some i
      | none => scanEmpty v.fd_table 3 (min start MAX_FDS - 3)
    match found with
    | none => (v, Except.error (-libc.EMFILE))
    | some fd =>
      let nf : Int := if fd + 1 < MAX_FDS then (fd : Int) + 1 else 3
      ({ v with
          fd_table := Function.update v.fd_table fd (some ⟨pf.2⟩)
          next_fd := nf },
        Except.ok fd)

/-- `Vfs::read`: range check (for `fd ≥ 0` the Rust `fd as usize >= MAX_FDS`
is `256 ≤ fd`), then the null-buffer check, then the table lookup. -/
def Vfs.read (v : Vfs) (fd : Int) (buf : Nat) (count : Nat) : Int :=
  if fd < 0 ∨ (MAX_FDS : Int) ≤ fd then -libc.EBADF
  else if count ≠ 0 ∧ buf = 0 then -libc.EFAULT
  else
    match v.fd_table fd.toNat with
    | some entry => entry.device.read buf count
    | none => -libc.EBADF

/-- `Vfs::write`: same checks as `read`, forwarding to `Device::write`. -/
def Vfs.write (v : Vfs) (fd : Int) (buf : Nat) (count : Nat) : Int :=
  if fd < 0 ∨ (MAX_FDS : Int) ≤ fd then -libc.EBADF
  else if count ≠ 0 ∧ buf = 0 then -libc.EFAULT
  else
    match v.fd_table fd.toNat with
    | some entry => entry.device.write buf count
    | none => -libc.EBADF

/-- `Vfs::lseek`: range check, then forward to `Device::seek`. -/
def Vfs.lseek (v : Vfs) (fd : Int) (offset : Int) (whence : Int) : Int :=
  if fd < 0 ∨ (MAX_FDS : Int) ≤ fd then -libc.EBADF
  else
    match v.fd_table fd.toNat with
    | some entry => entry.device.seek offset whence
    | none => -libc.EBADF

/-- `Vfs::ioctl`: range check, decode the request word, forward. -/
def Vfs.ioctl (v : Vfs) (fd : Int) (request : Nat) (raw_arg : Nat) : Int :=
  if fd < 0 ∨ (MAX_FDS : Int) ≤ fd then -libc.EBADF
  else
    match v.fd_table fd.toNat with
    | some entry => entry.device.ioctl (IoctlCommand.from_raw request) raw_arg
    | none => -libc.EBADF

/-- `Vfs::close`: range check, `take()` the slot (Bound slots transition to
Empty) and return the device's `release()`; EBADF on Empty. -/
def Vfs.close (v : Vfs) (fd : Int) : Vfs × Int :=
  if fd < 0 ∨ (MAX_FDS : Int) ≤ fd then (v, -libc.EBADF)
  else
    match v.fd_table fd.toNat with
    | some entry =>
      ({ v with fd_table := Function.update v.fd_table fd.toNat none },
        entry.device.release)
    | none => (v, -libc.EBADF)

/-! ## The circular allocation scan -/

/-- The scan order `open` traverses, as the spec words it: indices from
`max(next_fd, 3)` up to 255, then wrapping from 3 up to the start point. -/
def Vfs.scanOrder (v : Vfs) : List Nat :=
  let start : Nat := (max v.next_fd 3).toNat
  List.range' start (MAX_FDS - start) ++ List.range' 3 (min start MAX_FDS - 3)

theorem scanEmpty_eq_find? (t : Nat → Option FdEntry) (fuel lo : Nat) :
    scanEmpty t lo fuel = (List.range' lo fuel).find? (fun i => (t i).isNone) := by
  induction fuel generalizing lo with
  | zero => simp [scanEmpty]
  | succ n ih =>
    rw [List.range'_succ, scanEmpty, List.find?_cons]
    cases h : (t lo).isNone <;> simp [h, ih]

/-- The slot `max(next_fd, 3)` the scan starts at is at least 3. -/
theorem Vfs.start_ge_three (v : Vfs) : 3 ≤ (max v.next_fd 3).toNat := by
  have h := Int.toNat_le_toNat (le_max_right v.next_fd 3)
  omega

/-- The scan order visits exactly the indices 3..=255, in particular never a
reserved descriptor 0, 1 or 2. -/
theorem Vfs.mem_scanOrder (v : Vfs) (i : Nat) :
    i ∈ v.scanOrder ↔ 3 ≤ i ∧ i < MAX_FDS := by
  have hstart := v.start_ge_three
  unfold Vfs.scanOrder
  simp only [List.mem_append, List.mem_range'_1, MAX_FDS]
  revert hstart
  generalize (max v.next_fd 3).toNat = s
  intro hstart
  show (s ≤ i ∧ i < s + (256 - s)) ∨ (3 ≤ i ∧ i < 3 + (min s 256 - 3)) ↔ _
  omega

/-- `Vfs::open`, re-expressed through the factory lookup and a single `find?`
over the circular scan order. -/
theorem Vfs.open_eq (v : Vfs) (path : String) (flags : Int) (mode : Nat) :
    v.open path flags mode =
      match v.devices.find? (fun pf => pf.1 == path) with
      | none => (v, Except.error (-libc.ENOENT))
      | some pf =>
        match v.scanOrder.find? (fun i => (v.fd_table i).isNone) with
        | none => (v, Except.error (-libc.EMFILE))
        | some fd =>
          ({ v with
              fd_table := Function.update v.fd_table fd (some ⟨pf.2⟩)
              next_fd := if fd + 1 < MAX_FDS then (fd : Int) + 1 else 3 },
            Except.ok fd) := by
  have hfound : (match scanEmpty v.fd_table ((max v.next_fd 3).toNat)
        (MAX_FDS - (max v.next_fd 3).toNat) with
      | some i => some i
      | none => scanEmpty v.fd_table 3 (min ((max v.next_fd 3).toNat) MAX_FDS - 3))
      = v.scanOrder.find? (fun i => (v.fd_table i).isNone) := by
    rw [scanEmpty_eq_find?, scanEmpty_eq_find?, Vfs.scanOrder]
    simp only [List.find?_append]
    cases (List.range' ((max v.next_fd 3).toNat)
        (MAX_FDS - (max v.next_fd 3).toNat)).find? (fun i => (v.fd_table i).isNone) <;>
      rfl
  unfold Vfs.open
  cases hf : v.devices.find? (fun pf => pf.1 == path) with
  | none => rfl
  | some pf =>
    simp only
    rw [hfound]

theorem MAX_FDS_eq : MAX_FDS = 256 := rfl

/-- Every allocatable slot 3..=255 is Bound. -/
def Vfs.tableFull (v : Vfs) : Prop :=
  ∀ i : Nat, 3 ≤ i → i < MAX_FDS → (v.fd_table i).isSome

theorem Vfs.open_enoent {v : Vfs} {path : String} {flags : Int} {mode : Nat}
    (hf : v.devices.find? (fun pf => pf.1 == path) = none) :
    v.open path flags mode = (v, Except.error (-libc.ENOENT)) := by
  rw [Vfs.open_eq, hf]

theorem Vfs.scan_none_of_full {v : Vfs} (hfull : v.tableFull) :
    v.scanOrder.find? (fun i => (v.fd_table i).isNone) = none := by
  rw [List.find?_eq_none]
  intro i hi
  rw [v.mem_scanOrder] at hi
  have hs := hfull i hi.1 hi.2
  cases h : v.fd_table i <;> simp_all

theorem Vfs.open_emfile {v : Vfs} {path : String} {flags : Int} {mode : Nat}
    {pf : String × Device}
    (hf : v.devices.find? (fun x => x.1 == path) = some pf)
    (hfull : v.tableFull) :
    v.open path flags mode = (v, Except.error (-libc.EMFILE)) := by
  rw [Vfs.open_eq, hf, Vfs.scan_none_of_full hfull]

theorem Vfs.open_ok {v : Vfs} {path : String} {flags : Int} {mode : Nat}
    {pf : String × Device} {fd : Nat}
    (hf : v.devices.find? (fun x => x.1 == path) = some pf)
    (hscan : v.scanOrder.find? (fun i => (v.fd_table i).isNone) = some fd) :
    3 ≤ fd ∧ fd < MAX_FDS ∧ v.fd_table fd = none ∧
      v.open path flags mode =
        ({ v with
            fd_table := Function.update v.fd_table fd (some ⟨pf.2⟩)
            next_fd := if fd + 1 < MAX_FDS then (fd : Int) + 1 else 3 },
          Except.ok (fd : Int)) := by
  have hmem := List.mem_of_find?_eq_some hscan
  rw [v.mem_scanOrder] at hmem
  have hp := List.find?_some hscan
  refine ⟨hmem.1, hmem.2, ?_, ?_⟩
  · cases h : v.fd_table fd <;> simp_all
  · rw [Vfs.open_eq, hf, hscan]

theorem Vfs.scan_some_of_free {v : Vfs} {i : Nat}
    (h3 : 3 ≤ i) (h256 : i < MAX_FDS) (hfree : v.fd_table i = none) :
    ∃ fd, v.scanOrder.find? (fun j => (v.fd_table j).isNone) = some fd := by
  have hx : ∃ x, x ∈ v.scanOrder ∧ ((v.fd_table x).isNone = true) :=
    ⟨i, (v.mem_scanOrder i).mpr ⟨h3, h256⟩, by simp [hfree]⟩
  exact Option.isSome_iff_exists.mp (List.find?_isSome.mpr hx)

theorem Vfs.close_bound {v : Vfs} {fd : Int} {e : FdEntry}
    (h0 : 0 ≤ fd) (h1 : fd < (MAX_FDS : Int)) (hb : v.fd_table fd.toNat = some e) :
    v.close fd =
      ({ v with fd_table := Function.update v.fd_table fd.toNat none },
        e.device.release) := by
  unfold Vfs.close
  rw [if_neg (by simp only [MAX_FDS_eq] at h1 ⊢; omega), hb]

/-- C2: the `open` contract.  With no byte-equal registered path the result is
-ENOENT (and on duplicate registrations the first-registered factory is the
one `find?` returns); with a matching factory: a full table (all slots
3..=255 Bound) yields -EMFILE and an untouched state; when the circular scan
(from `max(next_fd, 3)` up to 255, wrapping to 3) finds a first Empty slot
`fd`, open returns `fd`, binds a fresh device from the factory into that
slot and sets `next_fd` to `fd+1` (or 3 when `fd` was the last index 255);
such a slot is found whenever any slot in 3..=255 is Empty; and after the
table fills up, closing one allocatable slot allows exactly one more
successful open before -EMFILE returns. -/
theorem C2_vfs_open_contract (v : Vfs) (path : String) (flags : Int) (mode : Nat) :
    (v.devices.find? (fun pf => pf.1 == path) = none →
      v.open path flags mode = (v, Except.error (-libc.ENOENT))
      ∧ ∀ f₁ f₂ : Device,
          (((v.register_device path f₁).1.register_device path f₂).1.devices.find?
            (fun pf => pf.1 == path)) = some (path, f₁))
    ∧ ∀ pf : String × Device, v.devices.find? (fun x => x.1 == path) = some pf →
        (v.tableFull → v.open path flags mode = (v, Except.error (-libc.EMFILE)))
        ∧ (∀ fd : Nat, v.scanOrder.find? (fun i => (v.fd_table i).isNone) = some fd →
            3 ≤ fd ∧ fd < MAX_FDS ∧ v.fd_table fd = none ∧
              v.open path flags mode =
                ({ v with
                    fd_table := Function.update v.fd_table fd (some ⟨pf.2⟩)
                    next_fd := if fd + 1 < MAX_FDS then (fd : Int) + 1 else 3 },
                  Except.ok (fd : Int)))
        ∧ ((∃ i : Nat, 3 ≤ i ∧ i < MAX_FDS ∧ v.fd_table i = none) →
            ∃ fd : Nat, v.scanOrder.find? (fun i => (v.fd_table i).isNone) = some fd)
        ∧ (v.tableFull → ∀ k : Nat, 3 ≤ k → k < MAX_FDS →
            ∃ fd : Int, ((v.close k).1.open path flags mode).2 = Except.ok fd
              ∧ ((((v.close k).1.open path flags mode).1.open path flags mode).2
                  = Except.error (-libc.EMFILE))) := by
  constructor
  · intro hf
    refine ⟨Vfs.open_enoent hf, ?_⟩
    intro f₁ f₂
    simp only [Vfs.register_device]
    rw [List.append_assoc, List.find?_append, hf]
    simp
  · intro pf hf
    refine ⟨fun hfull => Vfs.open_emfile hf hfull, ?_, ?_, ?_⟩
    · intro fd hscan
      exact Vfs.open_ok hf hscan
    · rintro ⟨i, h3, h256, hfree⟩
      exact Vfs.scan_some_of_free h3 h256 hfree
    · intro hfull k hk3 hk256
      obtain ⟨e, he⟩ := Option.isSome_iff_exists.mp (hfull k hk3 hk256)
      have hkn : ((k : Int)).toNat = k := Int.toNat_natCast k
      have hclose : v.close (k : Int) =
          ({ v with fd_table := Function.update v.fd_table k none },
            e.device.release) := by
        have hb' : v.fd_table ((k : Int)).toNat = some e := by
          rw [hkn]; exact he
        have hc0 : (0 : Int) ≤ (k : Int) := by omega
        have hc1 : ((k : Int)) < (MAX_FDS : Int) := by
          simp only [MAX_FDS_eq] at hk256 ⊢
          omega
        have := Vfs.close_bound hc0 hc1 hb'
        rw [this, hkn]
      set v₁ : Vfs := { v with fd_table := Function.update v.fd_table k none }
        with hv₁
      have hf₁ : v₁.devices.find? (fun x => x.1 == path) = some pf := hf
      have hfree₁ : v₁.fd_table k = none := by
        simp [hv₁, Function.update_same]
      obtain ⟨fd, hscan₁⟩ := Vfs.scan_some_of_free (v := v₁) hk3 hk256 hfree₁
      obtain ⟨hfd3, hfd256, hfdfree, hopen₁⟩ := Vfs.open_ok hf₁ hscan₁
      have hfdk : fd = k := by
        by_contra hne
        have : v₁.fd_table fd = v.fd_table fd := by
          simp [hv₁, Function.update_noteq hne]
        rw [this] at hfdfree
        have := hfull fd hfd3 hfd256
        rw [hfdfree] at this
        simp at this
      set v₂ : Vfs :=
        { v₁ with
            fd_table := Function.update v₁.fd_table fd (some ⟨pf.2⟩)
            next_fd := if fd + 1 < MAX_FDS then (fd : Int) + 1 else 3 }
        with hv₂
      have hfull₂ : v₂.tableFull := by
        intro i hi3 hi256
        by_cases hik : i = fd
        · subst hik
          simp [hv₂, Function.update_same]
        · have h1 : v₂.fd_table i = v₁.fd_table i := by
            simp [hv₂, Function.update_noteq hik]
          have h2 : v₁.fd_table i = v.fd_table i := by
            have hik' : i ≠ k := by rw [← hfdk]; exact hik
            simp [hv₁, Function.update_noteq hik']
          rw [h1, h2]
          exact hfull i hi3 hi256
      have hf₂ : v₂.devices.find? (fun x => x.1 == path) = some pf := hf
      refine ⟨(fd : Int), ?_, ?_⟩
      · rw [hclose]
        simp only
        rw [hopen₁]
      · rw [hclose]
        simp only
        rw [hopen₁]
        simp only
        rw [Vfs.open_emfile hf₂ hfull₂]

/-- C2 witness: on a fresh VFS with `/dev/null` registered, open finds slot 3,
binds the null device there and advances `next_fd` to 4. -/
theorem C2_vfs_open_contract_witness :
    3 ≤ 3 ∧ 3 < MAX_FDS ∧
      (Vfs.new.register_device "/dev/null" NullDevice).1.fd_table 3 = none ∧
      (Vfs.new.register_device "/dev/null" NullDevice).1.open "/dev/null" 0 0 =
        ({ (Vfs.new.register_device "/dev/null" NullDevice).1 with
            fd_table := Function.update
              (Vfs.new.register_device "/dev/null" NullDevice).1.fd_table 3
              (some ⟨NullDevice⟩)
            next_fd := if 3 + 1 < MAX_FDS then ((3 : Nat) : Int) + 1 else 3 },
          Except.ok ((3 : Nat) : Int)) :=
  ((C2_vfs_open_contract (Vfs.new.register_device "/dev/null" NullDevice).1
      "/dev/null" 0 0).2 ("/dev/null", NullDevice) rfl).2.1 3 rfl

/-- C3 counterexample: on the fresh VFS descriptor 3 is Empty, yet a read or
write with a null buffer and non-zero count returns -EFAULT, not -EBADF: the
null-buffer check runs before the descriptor-table lookup. -/
theorem C3_read_write_empty_counterexample :
    Vfs.new.fd_table 3 = none ∧
      Vfs.new.read 3 0 1 = -libc.EFAULT ∧ Vfs.new.read 3 0 1 ≠ -libc.EBADF ∧
      Vfs.new.write 3 0 1 = -libc.EFAULT ∧ Vfs.new.write 3 0 1 ≠ -libc.EBADF :=
  ⟨rfl, rfl, by decide, rfl, by decide⟩

/-- C3 amended: read/write on an Empty in-range descriptor fail with -EBADF
whenever the count is zero or the buffer is non-null; when the count is
non-zero and the buffer is null they fail with -EFAULT instead, because the
null-buffer check precedes the table lookup. -/
theorem C3_read_write_empty_amended (v : Vfs) (fd : Int) (buf count : Nat)
    (h0 : 0 ≤ fd) (h1 : fd < (MAX_FDS : Int)) (he : v.fd_table fd.toNat = none) :
    ((count = 0 ∨ buf ≠ 0) →
      v.read fd buf count = -libc.EBADF ∧ v.write fd buf count = -libc.EBADF)
    ∧ (count ≠ 0 → buf = 0 →
      v.read fd buf count = -libc.EFAULT ∧ v.write fd buf count = -libc.EFAULT) := by
  have hg : ¬ (fd < 0 ∨ (MAX_FDS : Int) ≤ fd) := by
    simp only [MAX_FDS_eq] at h1 ⊢
    omega
  constructor
  · intro hc
    have hb : ¬ (count ≠ 0 ∧ buf = 0) := by
      rcases hc with h | h <;> simp [h]
    constructor
    · unfold Vfs.read
      rw [if_neg hg, if_neg hb, he]
    · unfold Vfs.write
      rw [if_neg hg, if_neg hb, he]
  · intro hc hbuf
    constructor
    · unfold Vfs.read
      rw [if_neg hg, if_pos ⟨hc, hbuf⟩]
    · unfold Vfs.write
      rw [if_neg hg, if_pos ⟨hc, hbuf⟩]

/-- C3 witness for the amended statement: zero-count and non-null-buffer
read/write on the Empty descriptor 3 do return -EBADF. -/
theorem C3_read_write_empty_amended_witness :
    (Vfs.new.read 3 7 0 = -libc.EBADF ∧ Vfs.new.write 3 7 0 = -libc.EBADF)
    ∧ (Vfs.new.read 3 0 5 = -libc.EFAULT ∧ Vfs.new.write 3 0 5 = -libc.EFAULT) :=
  ⟨(C3_read_write_empty_amended Vfs.new 3 7 0 (by decide) (by decide) rfl).1
      (Or.inl rfl),
    (C3_read_write_empty_amended Vfs.new 3 0 5 (by decide) (by decide) rfl).2
      (by decide) rfl⟩

/-- A VFS state with a device keeping every `Device` trait default bound at
descriptor 3. -/
def vfsWithDefaultDev : Vfs :=
  { Vfs.new with
      fd_table := Function.update Vfs.new.fd_table 3 (some ⟨Device.defaults⟩) }

/-- C4 counterexample: descriptor 3 is Bound (to a device keeping the trait
defaults), yet a zero-length read/write with a null buffer returns -EBADF —
the device default's result — not 0: the VFS forwards zero-length operations
to the device instead of short-circuiting them to success. -/
theorem C4_zero_length_counterexample :
    (vfsWithDefaultDev.fd_table 3).isSome = true ∧
      vfsWithDefaultDev.read 3 0 0 = -libc.EBADF ∧
      vfsWithDefaultDev.read 3 0 0 ≠ 0 ∧
      vfsWithDefaultDev.write 3 0 0 = -libc.EBADF ∧
      vfsWithDefaultDev.write 3 0 0 ≠ 0 :=
  ⟨rfl, rfl, by decide, rfl, by decide⟩

/-- C4 amended: for every Bound descriptor, a non-zero-length read/write with
a null buffer fails with -EFAULT; a zero-length read/write — null buffer
included — bypasses the EFAULT check and is forwarded to the bound device
with count 0, returning whatever the device returns: 0 for the null and zero
devices, but -EBADF under the trait-default read/write. -/
theorem C4_zero_length_amended (v : Vfs) (fd : Int) (e : FdEntry) (buf count : Nat)
    (h0 : 0 ≤ fd) (h1 : fd < (MAX_FDS : Int)) (hb : v.fd_table fd.toNat = some e) :
    (count ≠ 0 →
      v.read fd 0 count = -libc.EFAULT ∧ v.write fd 0 count = -libc.EFAULT)
    ∧ v.read fd buf 0 = e.device.read buf 0
    ∧ v.write fd buf 0 = e.device.write buf 0
    ∧ NullDevice.read buf 0 = 0 ∧ NullDevice.write buf 0 = 0
    ∧ ZeroDevice.read buf 0 = 0 ∧ ZeroDevice.write buf 0 = 0 := by
  have hg : ¬ (fd < 0 ∨ (MAX_FDS : Int) ≤ fd) := by
    simp only [MAX_FDS_eq] at h1 ⊢
    omega
  have hz : ¬ ((0 : Nat) ≠ 0 ∧ buf = 0) := by simp
  refine ⟨fun hc => ⟨?_, ?_⟩, ?_, ?_, rfl, rfl, rfl, rfl⟩
  · unfold Vfs.read
    rw [if_neg hg, if_pos ⟨hc, rfl⟩]
  · unfold Vfs.write
    rw [if_neg hg, if_pos ⟨hc, rfl⟩]
  · unfold Vfs.read
    rw [if_neg hg, if_neg hz, hb]
  · unfold Vfs.write
    rw [if_neg hg, if_neg hz, hb]

/-- C4 witness for the amended statement, on the concrete Bound descriptor 3
of `vfsWithDefaultDev` with a null buffer. -/
theorem C4_zero_length_amended_witness :
    ((1 : Nat) ≠ 0 →
      vfsWithDefaultDev.read 3 0 1 = -libc.EFAULT ∧
        vfsWithDefaultDev.write 3 0 1 = -libc.EFAULT)
    ∧ vfsWithDefaultDev.read 3 0 0 = (FdEntry.mk Device.defaults).device.read 0 0
    ∧ vfsWithDefaultDev.write 3 0 0 = (FdEntry.mk Device.defaults).device.write 0 0
    ∧ NullDevice.read 0 0 = 0 ∧ NullDevice.write 0 0 = 0
    ∧ ZeroDevice.read 0 0 = 0 ∧ ZeroDevice.write 0 0 = 0 :=
  C4_zero_length_amended vfsWithDefaultDev 3 ⟨Device.defaults⟩ 0 1
    (by decide) (by decide) rfl

/-- C5: the `close` contract: -EBADF for an out-of-range or Empty descriptor;
on a Bound descriptor the slot transitions to Empty, the result is the bound
device's `release()`, and an immediately repeated close fails with -EBADF —
so `release` runs once, at the matching close. -/
theorem C5_vfs_close_contract (v : Vfs) (fd : Int) :
    ((fd < 0 ∨ (MAX_FDS : Int) ≤ fd) → v.close fd = (v, -libc.EBADF))
    ∧ (0 ≤ fd → fd < (MAX_FDS : Int) → v.fd_table fd.toNat = none →
        v.close fd = (v, -libc.EBADF))
    ∧ ∀ e : FdEntry, 0 ≤ fd → fd < (MAX_FDS : Int) → v.fd_table fd.toNat = some e →
        (v.close fd).2 = e.device.release
        ∧ (v.close fd).1.fd_table fd.toNat = none
        ∧ ((v.close fd).1.close fd).2 = -libc.EBADF := by
  refine ⟨?_, ?_, ?_⟩
  · intro hg
    unfold Vfs.close
    rw [if_pos hg]
  · intro h0 h1 he
    have hg : ¬ (fd < 0 ∨ (MAX_FDS : Int) ≤ fd) := by omega
    unfold Vfs.close
    rw [if_neg hg, he]
  · intro e h0 h1 hb
    have hg : ¬ (fd < 0 ∨ (MAX_FDS : Int) ≤ fd) := by omega
    have hclose := Vfs.close_bound h0 h1 hb
    refine ⟨by rw [hclose], ?_, ?_⟩
    · rw [hclose]
      simp [Function.update_same]
    · rw [hclose]
      simp only
      unfold Vfs.close
      rw [if_neg hg]
      simp [Function.update_same]

/-- C5 witness: closing the concrete Bound descriptor 3 returns the default
`release()` result 0, empties the slot, and a second close fails -EBADF. -/
theorem C5_vfs_close_contract_witness :
    (vfsWithDefaultDev.close 3).2 = (FdEntry.mk Device.defaults).device.release
    ∧ (vfsWithDefaultDev.close 3).1.fd_table (3 : Int).toNat = none
    ∧ ((vfsWithDefaultDev.close 3).1.close 3).2 = -libc.EBADF :=
  (C5_vfs_close_contract vfsWithDefaultDev 3).2.2 ⟨Device.defaults⟩
    (by decide) (by decide) rfl

/-! ## Reachable VFS states (for the reserved-descriptor invariant) -/

/-- One call against the VFS surface the claim enumerates:
`register_device / open / read / write / lseek / ioctl / close`. -/
inductive VfsCmd where
  | register (path : String) (factory : Device)
  | openCmd (path : String) (flags : Int) (mode : Nat)
  | readCmd (fd : Int) (buf count : Nat)
  | writeCmd (fd : Int) (buf count : Nat)
  | lseekCmd (fd : Int) (offset whence : Int)
  | ioctlCmd (fd : Int) (request raw_arg : Nat)
  | closeCmd (fd : Int)

/-- State transition of one call.  `read/write/lseek/ioctl` take `&mut self`
only to reach the boxed device; they never touch `fd_table`, `next_fd` or
`devices` (device-internal state is outside the model), so they leave the
VFS state unchanged. -/
def Vfs.step (v : Vfs) : VfsCmd → Vfs
  | VfsCmd.register path f => (v.register_device path f).1
  | VfsCmd.openCmd path flags mode => (v.open path flags mode).1
  | VfsCmd.readCmd _ _ _ => v
  | VfsCmd.writeCmd _ _ _ => v
  | VfsCmd.lseekCmd _ _ _ => v
  | VfsCmd.ioctlCmd _ _ _ => v
  | VfsCmd.closeCmd fd => (v.close fd).1

/-- The state after running a call sequence against the initial VFS. -/
def Vfs.run (cs : List VfsCmd) : Vfs := cs.foldl Vfs.step Vfs.new

theorem Vfs.close_next_fd (v : Vfs) (fd : Int) :
    (v.close fd).1.next_fd = v.next_fd := by
  unfold Vfs.close
  split
  · rfl
  · cases h : v.fd_table fd.toNat <;> rfl

/-- Whatever descriptor a successful `open` returns lies in 3..=255. -/
theorem Vfs.open_ok_range {v : Vfs} {path : String} {flags : Int} {mode : Nat}
    {fd : Int} (h : (v.open path flags mode).2 = Except.ok fd) :
    3 ≤ fd ∧ fd < (MAX_FDS : Int) := by
  rcases hdev : v.devices.find? (fun pf => pf.1 == path) with _ | pf
  · rw [Vfs.open_eq, hdev] at h
    simp at h
  · rcases hscan : v.scanOrder.find? (fun i => (v.fd_table i).isNone) with _ | n
    · rw [Vfs.open_eq, hdev, hscan] at h
      simp at h
    · rw [Vfs.open_eq, hdev, hscan] at h
      simp only at h
      have hmem := List.mem_of_find?_eq_some hscan
      rw [v.mem_scanOrder] at hmem
      have hfd : ((n : Int)) = fd := by
        injection h
      simp only [MAX_FDS_eq] at hmem ⊢
      omega

theorem Vfs.open_next_fd {v : Vfs} {path : String} {flags : Int} {mode : Nat}
    (h3 : 3 ≤ v.next_fd) (h255 : v.next_fd ≤ 255) :
    3 ≤ (v.open path flags mode).1.next_fd ∧
      (v.open path flags mode).1.next_fd ≤ 255 := by
  rcases hdev : v.devices.find? (fun pf => pf.1 == path) with _ | pf
  · rw [Vfs.open_eq, hdev]
    exact ⟨h3, h255⟩
  · rcases hscan : v.scanOrder.find? (fun i => (v.fd_table i).isNone) with _ | n
    · rw [Vfs.open_eq, hdev, hscan]
      exact ⟨h3, h255⟩
    · rw [Vfs.open_eq, hdev, hscan]
      have hmem := List.mem_of_find?_eq_some hscan
      rw [v.mem_scanOrder] at hmem
      simp only [MAX_FDS_eq] at hmem ⊢
      constructor <;> split <;> omega

theorem Vfs.step_next_fd {v : Vfs} (h3 : 3 ≤ v.next_fd) (h255 : v.next_fd ≤ 255)
    (c : VfsCmd) : 3 ≤ (v.step c).next_fd ∧ (v.step c).next_fd ≤ 255 := by
  cases c with
  | register path f => exact ⟨h3, h255⟩
  | openCmd path flags mode => exact Vfs.open_next_fd h3 h255
  | readCmd fd buf count => exact ⟨h3, h255⟩
  | writeCmd fd buf count => exact ⟨h3, h255⟩
  | lseekCmd fd offset whence => exact ⟨h3, h255⟩
  | ioctlCmd fd request raw_arg => exact ⟨h3, h255⟩
  | closeCmd fd =>
    show 3 ≤ (v.close fd).1.next_fd ∧ (v.close fd).1.next_fd ≤ 255
    rw [Vfs.close_next_fd]
    exact ⟨h3, h255⟩

theorem Vfs.run_next_fd (cs : List VfsCmd) :
    3 ≤ (Vfs.run cs).next_fd ∧ (Vfs.run cs).next_fd ≤ 255 := by
  suffices h : ∀ v : Vfs, 3 ≤ v.next_fd → v.next_fd ≤ 255 →
      3 ≤ (cs.foldl Vfs.step v).next_fd ∧ (cs.foldl Vfs.step v).next_fd ≤ 255 by
    exact h Vfs.new (by decide) (by decide)
  induction cs with
  | nil => intro v h3 h255; exact ⟨h3, h255⟩
  | cons c cs ih =>
    intro v h3 h255
    have hs := Vfs.step_next_fd h3 h255 c
    exact ih (v.step c) hs.1 hs.2

/-- C7: in every VFS state reachable by any sequence of `register_device /
open / read / write / lseek / ioctl / close` calls, the `next_fd` cursor
stays within 3..=255, the allocation scan only visits indices 3..=255, and a
successful `open` never returns descriptor 0, 1 or 2 (its result always lies
in 3..=255). -/
theorem C7_reserved_descriptors (cs : List VfsCmd) (path : String)
    (flags : Int) (mode : Nat) :
    3 ≤ (Vfs.run cs).next_fd ∧ (Vfs.run cs).next_fd ≤ 255
    ∧ (∀ i ∈ (Vfs.run cs).scanOrder, 3 ≤ i ∧ i < MAX_FDS)
    ∧ (∀ fd : Int, ((Vfs.run cs).open path flags mode).2 = Except.ok fd →
        3 ≤ fd ∧ fd < (MAX_FDS : Int)) := by
  obtain ⟨h3, h255⟩ := Vfs.run_next_fd cs
  refine ⟨h3, h255, ?_, ?_⟩
  · intro i hi
    exact ((Vfs.run cs).mem_scanOrder i).mp hi
  · intro fd h
    exact Vfs.open_ok_range h

/-- C7 witness: after registering `/dev/null`, the first `open` returns
descriptor 3, which indeed lies in 3..=255. -/
theorem C7_reserved_descriptors_witness :
    ((Vfs.run [VfsCmd.register "/dev/null" NullDevice]).open "/dev/null" 0 0).2
        = Except.ok 3
    ∧ (3 ≤ (3 : Int) ∧ (3 : Int) < (MAX_FDS : Int)) :=
  ⟨rfl,
    (C7_reserved_descriptors [VfsCmd.register "/dev/null" NullDevice]
      "/dev/null" 0 0).2.2.2 3 rfl⟩

/-! # RISC-V trap frame operations (zeroos-arch-riscv/src/ops.rs) -/

/-- Modelled from the spec: the `TrapFrame` struct lives in
`zeroos-arch-riscv/src/trap.rs`, which is not under `src/` (only `ops.rs`,
which manipulates it, is).  Spec §3 "Trap Frame": the register snapshot holds
the instruction pointer (`mepc`), cause (`mcause`), faulting address
(`mtval`), syscall number register (`a7`), the six syscall argument registers
`a0..a5` (with `a0` doubling as the return-value register), the stack pointer
(`sp`) and the TLS pointer (`tp`) — exactly the fields `ops.rs` accesses by
name.  All registers are `usize`-valued, modelled as `Nat`. -/
structure TrapFrame where
  sp : Nat
  tp : Nat
  mepc : Nat
  mcause : Nat
  mtval : Nat
  a0 : Nat
  a1 : Nat
  a2 : Nat
  a3 : Nat
  a4 : Nat
  a5 : Nat
  a7 : Nat
deriving DecidableEq, Repr

/-- Modelled from the spec: `TrapFrame::new()` (declared in the absent
`trap.rs`); spec §4.1 requires `trap_frame_init` to "zero the frame", so
`new` is the all-zero frame. -/
def TrapFrame.new : TrapFrame := ⟨0, 0, 0, 0, 0, 0, 0, 0, 0, 0, 0, 0⟩

/-- `trap_frame_clone(dst, src)`: `copy_nonoverlapping` of one whole frame —
the destination's new contents equal the source, whatever `dst` held. -/
def trap_frame_clone (_dst src : TrapFrame) : TrapFrame := src

/-- `trap_frame_init(regs, user_sp, user_tls, pc)`: overwrite the frame with
`TrapFrame::new()`, then set `sp`, `tp`, `mepc`, and force `a0` to 0 (the
fork-child return value).  The prior contents of `regs` are discarded. -/
def trap_frame_init (_regs : TrapFrame) (user_sp user_tls pc : Nat) : TrapFrame :=
  let r := TrapFrame.new
  let r := { r with sp := user_sp }
  let r := { r with tp := user_tls }
  let r := { r with mepc := pc }
  { r with a0 := 0 }

/-- `trap_frame_get_arg(regs, idx)`: the idx-th syscall argument register for
idx in 0..6, and 0 for anything else. -/
def trap_frame_get_arg (regs : TrapFrame) (idx : Nat) : Nat :=
  match idx with
  | 0 => regs.a0
  | 1 => regs.a1
  | 2 => regs.a2
  | 3 => regs.a3
  | 4 => regs.a4
  | 5 => regs.a5
  | _ => 0

/-- C8: after `trap_frame_init(regs, user_sp, user_tls, pc)` the frame is
zeroed except that `sp = user_sp`, `tp = user_tls`, `mepc = pc`, and the
return-value register `a0 = 0` — regardless of the frame's prior contents;
in particular `trap_frame_clone` followed by `trap_frame_init` leaves
`a0 = 0` no matter what the source frame's `a0` held. -/
theorem C8_trap_frame_init_contract (regs : TrapFrame) (user_sp user_tls pc : Nat) :
    trap_frame_init regs user_sp user_tls pc =
      { TrapFrame.new with sp := user_sp, tp := user_tls, mepc := pc }
    ∧ (trap_frame_init regs user_sp user_tls pc).sp = user_sp
    ∧ (trap_frame_init regs user_sp user_tls pc).tp = user_tls
    ∧ (trap_frame_init regs user_sp user_tls pc).mepc = pc
    ∧ (trap_frame_init regs user_sp user_tls pc).a0 = 0
    ∧ (trap_frame_init regs user_sp user_tls pc).mcause = 0
    ∧ (trap_frame_init regs user_sp user_tls pc).mtval = 0
    ∧ (trap_frame_init regs user_sp user_tls pc).a1 = 0
    ∧ (trap_frame_init regs user_sp user_tls pc).a2 = 0
    ∧ (trap_frame_init regs user_sp user_tls pc).a3 = 0
    ∧ (trap_frame_init regs user_sp user_tls pc).a4 = 0
    ∧ (trap_frame_init regs user_sp user_tls pc).a5 = 0
    ∧ (trap_frame_init regs user_sp user_tls pc).a7 = 0
    ∧ ∀ dst src : TrapFrame,
        (trap_frame_init (trap_frame_clone dst src) user_sp user_tls pc).a0 = 0 :=
  ⟨rfl, rfl, rfl, rfl, rfl, rfl, rfl, rfl, rfl, rfl, rfl, rfl, rfl,
    fun _dst _src => rfl⟩

/-- C9: `trap_frame_get_arg(regs, idx)` returns the idx-th syscall argument
register a0..a5 for idx in [0,6), and 0 (not an error) for every idx ≥ 6. -/
theorem C9_trap_frame_get_arg_contract (r : TrapFrame) :
    trap_frame_get_arg r 0 = r.a0 ∧ trap_frame_get_arg r 1 = r.a1 ∧
    trap_frame_get_arg r 2 = r.a2 ∧ trap_frame_get_arg r 3 = r.a3 ∧
    trap_frame_get_arg r 4 = r.a4 ∧ trap_frame_get_arg r 5 = r.a5 ∧
    ∀ idx : Nat, 6 ≤ idx → trap_frame_get_arg r idx = 0 := by
  refine ⟨rfl, rfl, rfl, rfl, rfl, rfl, ?_⟩
  intro idx h
  obtain ⟨n, rfl⟩ : ∃ n, idx = n + 6 := ⟨idx - 6, by omega⟩
  rfl

/-- C9 witness: on a concrete frame, argument 3 reads register a3 and the
out-of-range index 9 soft-fails to 0. -/
theorem C9_trap_frame_get_arg_contract_witness :
    trap_frame_get_arg ⟨100, 101, 102, 103, 104, 40, 41, 42, 43, 44, 45, 47⟩ 3
        = (TrapFrame.mk 100 101 102 103 104 40 41 42 43 44 45 47).a3
    ∧ trap_frame_get_arg ⟨100, 101, 102, 103, 104, 40, 41, 42, 43, 44, 45, 47⟩ 9
        = 0 :=
  ⟨(C9_trap_frame_get_arg_contract
      ⟨100, 101, 102, 103, 104, 40, 41, 42, 43, 44, 45, 47⟩).2.2.2.1,
    (C9_trap_frame_get_arg_contract
      ⟨100, 101, 102, 103, 104, 40, 41, 42, 43, 44, 45, 47⟩).2.2.2.2.2.2 9
      (by decide)⟩
